import Mathlib

/-!
Verification of the booking-slot allocation and conversational state-machine
core of the hospital appointment booking system.

The embedding models `app/tools.py` and `app/simple_agent.py`:
* times of day ("HH:MM" strings at the storage boundary) are carried as
  minutes since midnight where the Python code works on parsed `datetime`
  values, and as `String` where the Python code compares raw strings;
* the relational store is a `DB` value holding the doctor and booking rows;
  SQL equality filters on nullable columns are modelled by `sqlEq`, where a
  `none` (SQL NULL) operand matches no row, exactly as SQLAlchemy translates
  `column == None`;
* Python exceptions inside the per-message handler are modelled with
  `Except Unit`; the handler body threads the session state explicitly so
  that the state returned at a raise point is the state as mutated so far.
-/

deriving instance DecidableEq for Except

namespace HospitalBooking

/-- Value of an ASCII digit character, `none` on a non-digit. -/
def digitVal (c : Char) : Option Nat :=
  if c.isDigit then some (c.toNat - 48) else none

/-- Combine parsed hour and minute fields the way `strptime "%H:%M"` does:
both must be present, hour at most 23, minute at most 59. -/
def mkHM (oh om : Option Nat) : Option Nat :=
  match oh, om with
  | some h, some m => if h ≤ 23 && m ≤ 59 then some (h * 60 + m) else none
  | _, _ => none

/-- Two-digit field value. -/
def mk2 (oa ob : Option Nat) : Option Nat :=
  match oa, ob with
  | some a, some b => some (10 * a + b)
  | _, _ => none

/-- Parse of an `HH:MM` character sequence, mirroring
`datetime.strptime(s, "%H:%M")`: one or two digits, a colon, one or two
digits, and nothing else; result is minutes since midnight. -/
def parseHMChars : List Char → Option Nat
  | [a, c, b] => if c = ':' then mkHM (digitVal a) (digitVal b) else none
  | [a, b, c, d] =>
      if b = ':' then mkHM (digitVal a) (mk2 (digitVal c) (digitVal d))
      else if c = ':' then mkHM (mk2 (digitVal a) (digitVal b)) (digitVal d)
      else none
  | [a, b, c, d, e] =>
      if c = ':' then mkHM (mk2 (digitVal a) (digitVal b)) (mk2 (digitVal d) (digitVal e))
      else none
  | _ => none

/-- Parse an `HH:MM` string to minutes since midnight (`strptime "%H:%M"`). -/
def parseHM (s : String) : Option Nat := parseHMChars s.toList

/-- Two-digit zero padding, as `strftime` uses for `%H` and `%M`. -/
def pad2 (n : Nat) : String := if n < 10 then "0" ++ toString n else toString n

/-- Format minutes since midnight as an `HH:MM` string
(`datetime.strftime("%H:%M")`). -/
def fmtHM (m : Nat) : String := pad2 (m / 60) ++ ":" ++ pad2 (m % 60)

set_option maxHeartbeats 1000000 in
theorem parseHM_fmtHM_digits : ∀ h : Nat, h < 24 → ∀ mi : Nat, mi < 60 →
    parseHM (fmtHM (60 * h + mi)) = some (60 * h + mi) := by decide

/-- Formatting a valid time of day and parsing it back is the identity. -/
theorem parseHM_fmtHM (m : Nat) (hm : m < 1440) : parseHM (fmtHM m) = some m := by
  have h1 : m = 60 * (m / 60) + m % 60 := by omega
  have h2 : m / 60 < 24 := by omega
  have h3 : m % 60 < 60 := by omega
  calc parseHM (fmtHM m) = parseHM (fmtHM (60 * (m / 60) + m % 60)) := by rw [← h1]
    _ = some (60 * (m / 60) + m % 60) := parseHM_fmtHM_digits _ h2 _ h3
    _ = some m := by rw [← h1]

/-- Fuelled form of the slot-time loop; the fuel only bounds the recursion
depth and `slotTimes` always supplies enough of it. -/
def slotTimesAux : Nat → Nat → Nat → List Nat
  | 0, _, _ => []
  | fuel + 1, c, f => if c < f then c :: slotTimesAux fuel (c + 20) f else []

/-- The slot-time loop of `generate_time_slots` (`tools.py`): starting from
`current`, step by 20 minutes while strictly before `finish`. -/
def slotTimes (current finish : Nat) : List Nat :=
  slotTimesAux (finish - current) current finish

theorem slotTimesAux_congr : ∀ (n1 n2 c f : Nat), f - c ≤ n1 → f - c ≤ n2 →
    slotTimesAux n1 c f = slotTimesAux n2 c f := by
  intro n1
  induction n1 with
  | zero =>
    intro n2 c f h1 h2
    have hcf : ¬ c < f := by omega
    cases n2 with
    | zero => rfl
    | succ n2 => simp [slotTimesAux, hcf]
  | succ n1 ih =>
    intro n2 c f h1 h2
    by_cases hcf : c < f
    · cases n2 with
      | zero => omega
      | succ n2 =>
        simp only [slotTimesAux, if_pos hcf]
        rw [ih n2 (c + 20) f (by omega) (by omega)]
    · cases n2 with
      | zero => simp [slotTimesAux, hcf]
      | succ n2 => simp [slotTimesAux, hcf]

/-- `generate_time_slots` (`tools.py`): the 20-minute slot grid between a
start and end time, rendered back to `HH:MM` strings. -/
def generate_time_slots (start_time end_time : Nat) : List String :=
  (slotTimes start_time end_time).map fmtHM

theorem slotTimes_eq (c f : Nat) :
    slotTimes c f = if c < f then c :: slotTimes (c + 20) f else [] := by
  unfold slotTimes
  by_cases hcf : c < f
  · have hfc : f - c = (f - c - 1) + 1 := by omega
    rw [hfc]
    simp only [slotTimesAux, if_pos hcf]
    rw [slotTimesAux_congr (f - c - 1) (f - (c + 20)) (c + 20) f (by omega) (by omega)]
  · have hfc : f - c = 0 := by omega
    rw [hfc, if_neg hcf]
    rfl

theorem slotTimes_head (c f : Nat) (h : c < f) : (slotTimes c f).head? = some c := by
  rw [slotTimes_eq, if_pos h]
  rfl

theorem mem_slotTimes_bounded : ∀ (n c f m : Nat), f - c ≤ n →
    (m ∈ slotTimes c f ↔ (∃ k, m = c + 20 * k) ∧ m < f) := by
  intro n
  induction n with
  | zero =>
    intro c f m hn
    rw [slotTimes_eq, if_neg (by omega)]
    simp only [List.not_mem_nil, false_iff]
    rintro ⟨⟨k, rfl⟩, hm⟩
    omega
  | succ n ih =>
    intro c f m hn
    by_cases h : c < f
    · rw [slotTimes_eq, if_pos h, List.mem_cons, ih (c + 20) f m (by omega)]
      constructor
      · rintro (rfl | ⟨⟨k, rfl⟩, hm⟩)
        · exact ⟨⟨0, by omega⟩, h⟩
        · exact ⟨⟨k + 1, by omega⟩, hm⟩
      · rintro ⟨⟨k, rfl⟩, hm⟩
        match k with
        | 0 => exact Or.inl (by omega)
        | k + 1 => exact Or.inr ⟨⟨k, by omega⟩, hm⟩
    · rw [slotTimes_eq, if_neg h]
      simp only [List.not_mem_nil, false_iff]
      rintro ⟨⟨k, rfl⟩, hm⟩
      omega

theorem mem_slotTimes (c f : Nat) : ∀ m : Nat,
    m ∈ slotTimes c f ↔ (∃ k, m = c + 20 * k) ∧ m < f :=
  fun m => mem_slotTimes_bounded (f - c) c f m le_rfl

theorem slotTimes_chain_bounded : ∀ (n c f : Nat), f - c ≤ n →
    List.Chain' (fun a b => b = a + 20) (slotTimes c f) := by
  intro n
  induction n with
  | zero =>
    intro c f hn
    rw [slotTimes_eq, if_neg (by omega)]
    exact List.chain'_nil
  | succ n ih =>
    intro c f hn
    by_cases h : c < f
    · rw [slotTimes_eq, if_pos h, List.chain'_cons']
      refine ⟨?_, ih (c + 20) f (by omega)⟩
      intro b hb
      by_cases h2 : c + 20 < f
      · rw [slotTimes_head _ _ h2] at hb
        simp only [Option.mem_def, Option.some.injEq] at hb
        omega
      · rw [slotTimes_eq, if_neg h2] at hb
        simp at hb
    · rw [slotTimes_eq, if_neg h]
      exact List.chain'_nil

theorem slotTimes_chain (c f : Nat) :
    List.Chain' (fun a b => b = a + 20) (slotTimes c f) :=
  slotTimes_chain_bounded (f - c) c f le_rfl

theorem slotTimes_sorted (c f : Nat) : List.Pairwise (· < ·) (slotTimes c f) := by
  have h := slotTimes_chain c f
  have h2 : List.Chain' (· < ·) (slotTimes c f) := by
    refine List.Chain'.imp ?_ h
    intro a b hab
    omega
  exact List.chain'_iff_pairwise.mp h2

/-- A row of the `doctors` table (`models.py`). The working-hours columns
hold `HH:MM` strings in the store; they are carried here as the minutes
value `strptime "%H:%M"` yields, which is how every reader consumes them. -/
structure Doctor where
  id : Nat
  doctor_name : String
  department : String
  available_start : Nat
  available_end : Nat
  off_day : Option String
deriving Repr, DecidableEq

/-- A row of the `bookings` table (`models.py`). All four data columns are
nullable in the schema, hence `Option String`. -/
structure Booking where
  id : Nat
  patient_name : Option String
  doctor_name : Option String
  date : Option String
  time_slot : Option String
deriving Repr, DecidableEq

/-- The relational store: the two tables plus the next autoincrement key. -/
structure DB where
  doctors : List Doctor
  bookings : List Booking
  next_id : Nat
deriving Repr, DecidableEq

/-- SQL equality on a nullable column: a NULL operand matches no row
(SQLAlchemy renders `column == None` as `IS NULL`, and the data columns of
seeded rows are never NULL; symmetrically `NULL = v` is not true in SQL). -/
def sqlEq (a b : Option String) : Bool :=
  match a, b with
  | some x, some y => x == y
  | _, _ => false

/-- Leading-segment test on character lists. -/
def leadMatch : List Char → List Char → Bool
  | [], _ => true
  | _ :: _, [] => false
  | a :: as, b :: bs => a == b && leadMatch as bs

/-- Substring test on character lists: `pat` occurs contiguously in `s`. -/
def hasSub (pat : List Char) : List Char → Bool
  | [] => pat.isEmpty
  | c :: cs => leadMatch pat (c :: cs) || hasSub pat cs

/-- Python `pat in hay` on strings (case-sensitive substring). -/
def strContains (hay pat : String) : Bool := hasSub pat.toList hay.toList

/-- ASCII lowercase of one character, as `str.lower` acts on the ASCII
range the data of this system lives in. -/
def lowerChar (c : Char) : Char :=
  if 65 ≤ c.toNat ∧ c.toNat ≤ 90 then Char.ofNat (c.toNat + 32) else c

/-- `str.lower()` over the ASCII range. -/
def strLower (s : String) : String := ⟨s.toList.map lowerChar⟩

/-- SQL `ILIKE '%pat%'`: case-insensitive substring match. -/
def strContainsCI (hay pat : String) : Bool :=
  hasSub (strLower pat).toList (strLower hay).toList

/-- Python string interpolation of a possibly-`None` value: `None` renders
as the text `"None"`. -/
def pyStr : Option String → String
  | none => "None"
  | some s => s

/-- The exact-name doctor lookup
`db.query(Doctor).filter(Doctor.doctor_name == doctor_name).first()` used by
`get_doctor_available_slots` and `check_doctor_availability` (`tools.py`).
A `none` name is SQL NULL and matches no row. -/
def findDoctorExact (db : DB) (name : Option String) : Option Doctor :=
  match name with
  | some n => db.doctors.find? (fun d => d.doctor_name == n)
  | none => none

/-- `find_doctor_by_name` (`tools.py`): first doctor whose name contains the
argument case-insensitively (`ILIKE '%name%'`); a `None` argument is
interpolated into the pattern as the text `"None"`. -/
def find_doctor_by_name (db : DB) (name : Option String) : Option Doctor :=
  db.doctors.find? (fun d => strContainsCI d.doctor_name (pyStr name))

/-- `find_doctors_by_department` (`tools.py`): all doctors whose department
contains the argument case-insensitively. -/
def find_doctors_by_department (db : DB) (dept : String) : List Doctor :=
  db.doctors.filter (fun d => strContainsCI d.department dept)

/-- `list_departments` (`tools.py`): the distinct department values. -/
def list_departments (db : DB) : List String :=
  (db.doctors.map (fun d => d.department)).dedup

/-- The booked rows for a (doctor, date) pair, projected to their time
slots, as queried inside `get_doctor_available_slots` (`tools.py`). -/
def bookedSlotsFor (db : DB) (doctor_name date : Option String) : List (Option String) :=
  (db.bookings.filter (fun b => sqlEq b.doctor_name doctor_name && sqlEq b.date date)).map
    (fun b => b.time_slot)

/-- `get_doctor_available_slots` (`tools.py`): the doctor's full slot grid
minus the slots already booked for that exact (doctor, date) pair; the empty
list when the doctor lookup misses. -/
def get_doctor_available_slots (db : DB) (doctor_name date : Option String) : List String :=
  match findDoctorExact db doctor_name with
  | none => []
  | some doc =>
    let all_slots := generate_time_slots doc.available_start doc.available_end
    let booked_slots := bookedSlotsFor db doctor_name date
    all_slots.filter (fun s => !(booked_slots.contains (some s)))

/-- The existence check of `create_booking` (`tools.py`): is there already a
booking with the identical (doctor, date, time slot) triple? -/
def booking_matches (b : Booking) (doctor_name date time_slot : Option String) : Bool :=
  sqlEq b.doctor_name doctor_name && sqlEq b.date date && sqlEq b.time_slot time_slot

def booking_exists_check (db : DB) (doctor_name date time_slot : Option String) : Bool :=
  db.bookings.any (fun b => booking_matches b doctor_name date time_slot)

/-- The insert-and-commit half of `create_booking` (`tools.py`): append the
new row, handing it the next autoincrement key. -/
def booking_insert (db : DB) (patient_name doctor_name date time_slot : Option String) :
    DB × Booking :=
  let b : Booking := ⟨db.next_id, patient_name, doctor_name, date, time_slot⟩
  ({ db with bookings := db.bookings ++ [b], next_id := db.next_id + 1 }, b)

/-- `create_booking` (`tools.py`): return `none` (conflict) when a booking
with the identical (doctor, date, time slot) triple exists, leaving the
store unchanged; otherwise insert and return the new row. -/
def create_booking (db : DB) (patient_name doctor_name date time_slot : Option String) :
    DB × Option Booking :=
  if booking_exists_check db doctor_name date time_slot then (db, none)
  else
    let r := booking_insert db patient_name doctor_name date time_slot
    (r.1, some r.2)

/-- Sequence a list of time parses; `none` as soon as one fails, modelling
the exception `strptime` would raise inside the list comprehension of
`suggest_alternative_slots`. -/
def parseTimes : List String → Option (List Nat)
  | [] => some []
  | s :: ss =>
    match parseHM s, parseTimes ss with
    | some t, some ts => some (t :: ts)
    | _, _ => none

/-- Stable insertion by key: `x` goes before the first element whose key is
not smaller, so earlier elements win ties. -/
def insertStable (key : Nat → Nat) (x : Nat) : List Nat → List Nat
  | [] => [x]
  | y :: ys => if key y < key x then y :: insertStable key x ys else x :: y :: ys

/-- Stable sort by key. Python `list.sort(key=...)` is stable, so any stable
sort by the same key computes the same list. -/
def sortStableByKey (key : Nat → Nat) : List Nat → List Nat
  | [] => []
  | x :: xs => insertStable key x (sortStableByKey key xs)

/-- `suggest_alternative_slots` (`tools.py`): empty when nothing is free,
the preferred time alone when it is free, otherwise the three free slots
closest to it by absolute time distance (stable sort on the distance key),
rendered back to `HH:MM`. A malformed time string raises (`Except.error`). -/
def suggest_alternative_slots (db : DB) (doctor_name date : Option String)
    (preferred_time : String) : Except Unit (List String) :=
  let available_slots := get_doctor_available_slots db doctor_name date
  if available_slots.isEmpty then .ok []
  else if available_slots.contains preferred_time then .ok [preferred_time]
  else
    match parseHM preferred_time with
    | none => .error ()
    | some p =>
      match parseTimes available_slots with
      | none => .error ()
      | some ts => .ok (((sortStableByKey (Nat.dist p) ts).take 3).map fmtHM)

/-- Gregorian leap-year rule, as `datetime` implements it. -/
def isLeap (y : Nat) : Bool := (y % 4 == 0 && y % 100 != 0) || y % 400 == 0

def daysInMonth (y m : Nat) : Nat :=
  if m = 2 then (if isLeap y then 29 else 28)
  else if m = 4 ∨ m = 6 ∨ m = 9 ∨ m = 11 then 30
  else 31

/-- Split a character list on the hyphen separator. -/
def splitDash : List Char → List (List Char)
  | [] => [[]]
  | c :: cs =>
    let r := splitDash cs
    if c = '-' then [] :: r
    else
      match r with
      | [] => [[c]]
      | g :: gs => (c :: g) :: gs

def digitsValAux : List Char → Nat → Option Nat
  | [], acc => some acc
  | c :: cs, acc =>
    match digitVal c with
    | some d => digitsValAux cs (10 * acc + d)
    | none => none

/-- A nonempty all-digit numeral field. -/
def digitsVal : List Char → Option Nat
  | [] => none
  | cs => digitsValAux cs 0

/-- Parse of a `YYYY-MM-DD` string, mirroring
`datetime.strptime(date, "%Y-%m-%d")`: three numeric fields with a valid
calendar month and day-of-month. -/
def parseDate (s : String) : Option (Nat × Nat × Nat) :=
  match splitDash s.toList with
  | [ys, ms, ds] =>
    match digitsVal ys, digitsVal ms, digitsVal ds with
    | some y, some m, some d =>
      if 1 ≤ y ∧ 1 ≤ m ∧ m ≤ 12 ∧ 1 ≤ d ∧ d ≤ daysInMonth y m then some (y, m, d)
      else none
    | _, _, _ => none
  | _ => none

/-- Days in the years strictly before `y` (proleptic Gregorian calendar,
as `datetime.toordinal` counts them). -/
def daysBeforeYear (y : Nat) : Nat :=
  365 * (y - 1) + (y - 1) / 4 - (y - 1) / 100 + (y - 1) / 400

def daysBeforeMonth (y : Nat) : Nat → Nat
  | 0 => 0
  | 1 => 0
  | m + 1 => daysBeforeMonth y m + daysInMonth y m

/-- `date.toordinal()`: day count with 0001-01-01 as day 1. -/
def toOrdinal (y m d : Nat) : Nat := daysBeforeYear y + daysBeforeMonth y m + d

def dayNames : List String :=
  ["Monday", "Tuesday", "Wednesday", "Thursday", "Friday", "Saturday", "Sunday"]

/-- `date.strftime("%A")`: the weekday name; 0001-01-01 was a Monday. -/
def dayName (y m d : Nat) : String := dayNames.getD ((toOrdinal y m d - 1) % 7) ""

/-- `check_doctor_availability` (`tools.py`): `false` when the exact-name
doctor lookup misses; otherwise parse the date (raising on a malformed
string) and return `false` exactly when the doctor has a truthy configured
off-day equal to the day-of-week name. -/
def check_doctor_availability (db : DB) (doctor_name : Option String) (date : String) :
    Except Unit Bool :=
  match findDoctorExact db doctor_name with
  | none => .ok false
  | some doc =>
    match parseDate date with
    | none => .error ()
    | some (y, m, d) =>
      let day_name := dayName y m d
      match doc.off_day with
      | some o => if !(o == "") && day_name == o then .ok false else .ok true
      | none => .ok true

/-- The structured parse returned by `extract_intent_and_entities`
(`simple_agent.py`); each field is an optional JSON string, where `some`
carries the raw value (possibly empty, which Python treats as falsy). -/
structure Parsed where
  intent : Option String
  patient_name : Option String
  department : Option String
  doctor_name : Option String
  date : Option String
  time : Option String
  problem_description : Option String
deriving Repr, DecidableEq

def Parsed.empty : Parsed := ⟨none, none, none, none, none, none, none⟩

/-- The booking snapshot dict stored on the session after a successful
confirmation (`simple_agent.py`). -/
structure BookingDetails where
  id : Nat
  patient_name : Option String
  doctor_name : Option String
  date : Option String
  time_slot : Option String
deriving Repr, DecidableEq

/-- `ConversationState` (`simple_agent.py`). -/
structure ConvState where
  patient_name : Option String
  intent : Option String
  selected_department : Option String
  selected_doctor : Option String
  selected_date : Option String
  selected_time : Option String
  booking_confirmed : Bool
  booking_details : Option BookingDetails
  step : String
deriving Repr, DecidableEq

/-- The state `ConversationState.__init__` builds for a fresh session. -/
def freshState : ConvState := ⟨none, none, none, none, none, none, false, none, "welcome"⟩

/-- Python truthiness of an optional string: `None` and `""` are falsy. -/
def truthy : Option String → Bool
  | none => false
  | some s => !(s == "")

/-- Keep an optional string only when Python would treat it as truthy. -/
def truthyVal (o : Option String) : Option String := if truthy o then o else none

/-- The reset phrases matched against the lowercased full message. -/
def resetPhrases : List String := ["hi", "hello", "start over", "reset", "new appointment"]

/-- The canonical department names hard-coded in the doctor-selection
fallback scan (`simple_agent.py`). -/
def departmentNames : List String :=
  ["Cardiology", "Dermatology", "Emergency Medicine", "Family Medicine",
   "Gastroenterology", "Nephrology", "Neurology", "Oncology",
   "Ophthalmology", "Orthopedics", "Pathology", "Pediatrics",
   "Radiology", "Surgery"]

def anyWordIn (pl : String) (ws : List String) : Bool := ws.any (fun w => strContains pl w)

/-- The symptom-to-department keyword table of the department-selection
step (`simple_agent.py`), first matching rule wins. -/
def inferDept (problem : String) : Option String :=
  let pl := strLower problem
  if anyWordIn pl ["heart", "chest", "cardiac"] then some "Cardiology"
  else if anyWordIn pl ["skin", "rash", "dermatitis"] then some "Dermatology"
  else if anyWordIn pl ["child", "baby", "pediatric"] then some "Pediatrics"
  else if anyWordIn pl ["bone", "joint", "fracture"] then some "Orthopedics"
  else if anyWordIn pl ["eye", "vision", "sight"] then some "Ophthalmology"
  else if anyWordIn pl ["brain", "headache", "neurological"] then some "Neurology"
  else if anyWordIn pl ["stomach", "digestive", "gastro"] then some "Gastroenterology"
  else if anyWordIn pl ["kidney", "renal", "urinary"] then some "Nephrology"
  else if anyWordIn pl ["cancer", "tumor", "oncology"] then some "Oncology"
  else if anyWordIn pl ["surgery", "operation", "surgical"] then some "Surgery"
  else if anyWordIn pl ["family", "general", "primary"] then some "Family Medicine"
  else if anyWordIn pl ["emergency", "urgent", "acute"] then some "Emergency Medicine"
  else if anyWordIn pl ["x-ray", "scan", "imaging"] then some "Radiology"
  else if anyWordIn pl ["test", "lab", "pathology"] then some "Pathology"
  else none

/-- The replies `process_message` can produce, tagged by which response
template of `simple_agent.py` they instantiate, carrying the dynamic
values interpolated into the template. -/
inductive Msg where
  | welcomePrompt
  | greet (name : String)
  | greetBack (name : Option String)
  | bookingPrompt (depts : List String)
  | rePromptBooking
  | doctorList (dept : String) (docs : List Doctor)
  | deptEmpty (dept : String) (depts : List String)
  | askDepartment
  | doctorNotFound (name : String)
  | dateAsk (doc : Doctor) (today tomorrow : String)
  | deptEmptyChoose (dept : String)
  | askDoctorAgain
  | offDayReply (name : Option String) (date : String) (offDay : Option String)
  | slotsList (name : Option String) (date : String) (slots : List String)
  | noSlots (name : Option String) (date : String)
  | askDate
  | confirmSummary (patient doctor date : Option String) (time : String)
  | alternatives (time : String) (alts : List String)
  | noAlternatives (time : String)
  | askTime
  | bookedOk (details : BookingDetails)
  | conflictRetry
  | modifyPrompt
  | alreadyDone
  | didNotUnderstand
  | apology
deriving Repr, DecidableEq

/-- Step 1 of `process_message`: welcome and collect the patient name. -/
def handleWelcome (db : DB) (st : ConvState) (parsed : Parsed) :
    DB × ConvState × Except Unit Msg :=
  if !(truthy st.patient_name) then
    match truthyVal parsed.patient_name with
    | some n => (db, { st with patient_name := some n, step := "booking_request" }, .ok (.greet n))
    | none => (db, st, .ok .welcomePrompt)
  else
    (db, { st with step := "booking_request" }, .ok (.greetBack st.patient_name))

/-- Step 2: the booking request; `ml` is the lowercased message. -/
def handleBookingRequest (db : DB) (st : ConvState) (ml : String) (parsed : Parsed) :
    DB × ConvState × Except Unit Msg :=
  if parsed.intent == some "book_appointment" || strContains ml "book" ||
      strContains ml "appointment" then
    (db, { st with step := "department_selection" }, .ok (.bookingPrompt (list_departments db)))
  else (db, st, .ok .rePromptBooking)

/-- Step 3: department selection, with the symptom-table fallback. -/
def handleDeptSelection (db : DB) (st : ConvState) (parsed : Parsed) :
    DB × ConvState × Except Unit Msg :=
  let department :=
    match truthyVal parsed.department with
    | some d2 => some d2
    | none =>
      match truthyVal parsed.problem_description with
      | some pr => inferDept pr
      | none => none
  match department with
  | some dept =>
    let docs := find_doctors_by_department db dept
    if !docs.isEmpty then
      (db, { st with selected_department := some dept, step := "doctor_selection" },
        .ok (.doctorList dept docs))
    else
      (db, st, .ok (.deptEmpty dept (list_departments db)))
  | none => (db, st, .ok .askDepartment)

/-- Step 4: doctor selection. A parsed department is first compared with
the stored one, raising when the stored one is `None` (`None.lower()`). -/
def handleDoctorSelection (db : DB) (st : ConvState) (ml : String) (parsed : Parsed)
    (today tomorrow : String) : DB × ConvState × Except Unit Msg :=
  let deptChange : Except Unit (Option String) :=
    match truthyVal parsed.department with
    | none => .ok none
    | some d2 =>
      match st.selected_department with
      | none => .error ()
      | some sel => if strLower d2 == strLower sel then .ok none else .ok (some d2)
  match deptChange with
  | .error e => (db, st, .error e)
  | .ok (some d2) =>
    let docs := find_doctors_by_department db d2
    if !docs.isEmpty then
      (db, { st with selected_department := some d2, step := "doctor_selection" },
        .ok (.doctorList d2 docs))
    else
      (db, { st with step := "department_selection" }, .ok (.deptEmpty d2 (list_departments db)))
  | .ok none =>
    match truthyVal parsed.doctor_name with
    | some dn =>
      match find_doctor_by_name db (some dn) with
      | some doc =>
        (db, { st with selected_doctor := some doc.doctor_name, step := "date_selection" },
          .ok (.dateAsk doc today tomorrow))
      | none => (db, st, .ok (.doctorNotFound dn))
    | none =>
      match departmentNames.find? (fun d2 => strContains ml (strLower d2)) with
      | some dept =>
        let docs := find_doctors_by_department db dept
        if !docs.isEmpty then
          (db, { st with selected_department := some dept, step := "doctor_selection" },
            .ok (.doctorList dept docs))
        else
          (db, { st with step := "department_selection" }, .ok (.deptEmptyChoose dept))
      | none => (db, st, .ok .askDoctorAgain)

/-- Step 5: date selection. The availability check raises on a malformed
date, and the off-day reply dereferences a lookup that can be `None`. -/
def handleDateSelection (db : DB) (st : ConvState) (ml : String) (parsed : Parsed)
    (today tomorrow : String) : DB × ConvState × Except Unit Msg :=
  let date :=
    match truthyVal parsed.date with
    | some d2 => some d2
    | none =>
      if strContains ml "today" then some today
      else if strContains ml "tomorrow" then some tomorrow
      else none
  match date with
  | some d2 =>
    match check_doctor_availability db st.selected_doctor d2 with
    | .error e => (db, st, .error e)
    | .ok false =>
      match find_doctor_by_name db st.selected_doctor with
      | none => (db, st, .error ())
      | some doc => (db, st, .ok (.offDayReply st.selected_doctor d2 doc.off_day))
    | .ok true =>
      let available_slots := get_doctor_available_slots db st.selected_doctor (some d2)
      if !available_slots.isEmpty then
        (db, { st with selected_date := some d2, step := "time_selection" },
          .ok (.slotsList st.selected_doctor d2 (available_slots.take 10)))
      else
        (db, st, .ok (.noSlots st.selected_doctor d2))
  | none => (db, st, .ok .askDate)

/-- Step 6: time selection; suggesting alternatives raises on a malformed
parsed time. -/
def handleTimeSelection (db : DB) (st : ConvState) (parsed : Parsed) :
    DB × ConvState × Except Unit Msg :=
  match truthyVal parsed.time with
  | some t =>
    let available_slots := get_doctor_available_slots db st.selected_doctor st.selected_date
    if available_slots.contains t then
      (db, { st with selected_time := some t, step := "confirm_booking" },
        .ok (.confirmSummary st.patient_name st.selected_doctor st.selected_date t))
    else
      match suggest_alternative_slots db st.selected_doctor st.selected_date t with
      | .error e => (db, st, .error e)
      | .ok alts =>
        if !alts.isEmpty then (db, st, .ok (.alternatives t alts))
        else (db, { st with step := "date_selection" }, .ok (.noAlternatives t))
  | none => (db, st, .ok .askTime)

/-- Step 7: confirmation and booking creation. -/
def handleConfirm (db : DB) (st : ConvState) (ml : String) :
    DB × ConvState × Except Unit Msg :=
  if strContains ml "yes" || strContains ml "confirm" then
    let r := create_booking db st.patient_name st.selected_doctor st.selected_date
      st.selected_time
    match r.2 with
    | some b =>
      let details : BookingDetails := ⟨b.id, b.patient_name, b.doctor_name, b.date, b.time_slot⟩
      let st2 := { st with booking_confirmed := true, booking_details := some details, step := "completed" }
      (r.1, st2, .ok (.bookedOk details))
    | none => (r.1, { st with step := "time_selection" }, .ok .conflictRetry)
  else (db, st, .ok .modifyPrompt)

/-- The body of the `try` block of `process_message` (`simple_agent.py`),
with the session state threaded explicitly: each step handler performs its
lookups and raising operations in source order and applies its state
mutations where the source does, so an `Except.error` result carries the
state exactly as mutated up to the raise point. The raise points are the
`strptime` calls on externally supplied date and time strings and the two
attribute accesses on a possibly-`None` value (`state.selected_department
.lower()` in doctor selection and `doctor.off_day` after a failed lookup in
date selection). `today` and `tomorrow` stand for the strings
`datetime.now()` formatting produces. -/
def process_inner (db : DB) (st : ConvState) (message : String) (parsed : Parsed)
    (today tomorrow : String) : DB × ConvState × Except Unit Msg :=
  let ml := strLower message
  if resetPhrases.contains ml then
    (db, freshState, .ok .welcomePrompt)
  else if st.step == "welcome" then handleWelcome db st parsed
  else if st.step == "booking_request" then handleBookingRequest db st ml parsed
  else if st.step == "department_selection" then handleDeptSelection db st parsed
  else if st.step == "doctor_selection" then handleDoctorSelection db st ml parsed today tomorrow
  else if st.step == "date_selection" then handleDateSelection db st ml parsed today tomorrow
  else if st.step == "time_selection" then handleTimeSelection db st parsed
  else if st.step == "confirm_booking" then handleConfirm db st ml
  else if st.step == "completed" then (db, st, .ok .alreadyDone)
  else (db, st, .ok .didNotUnderstand)

/-- The response dict `process_message` returns. -/
structure AgentReply where
  reply : Msg
  done : Bool
  booking_details : Option BookingDetails
deriving Repr, DecidableEq

/-- `process_message` (`simple_agent.py`): run the per-message transition
logic and build the response dict; an uncaught exception is converted to
the generic apology with `done := false` and no booking details, the
session keeping whatever state the inner logic left it. -/
def process_message (db : DB) (st : ConvState) (message : String) (parsed : Parsed)
    (today tomorrow : String) : DB × ConvState × AgentReply :=
  match process_inner db st message parsed today tomorrow with
  | (db2, st2, .ok r) => (db2, st2, ⟨r, st2.booking_confirmed, st2.booking_details⟩)
  | (db2, st2, .error _) => (db2, st2, ⟨.apology, false, none⟩)

theorem contains_eq_true_iff {α} [BEq α] [LawfulBEq α] (l : List α) (a : α) :
    l.contains a = true ↔ a ∈ l := by
  simp

theorem sqlEq_some_iff (a : Option String) (x : String) : sqlEq a (some x) = true ↔ a = some x := by
  cases a with
  | none => simp [sqlEq]
  | some y => simp [sqlEq]

theorem booking_matches_iff (b : Booking) (dn dt ts : String) :
    booking_matches b (some dn) (some dt) (some ts) = true ↔
      b.doctor_name = some dn ∧ b.date = some dt ∧ b.time_slot = some ts := by
  simp [booking_matches, Bool.and_eq_true, sqlEq_some_iff, and_assoc]

theorem booking_exists_check_iff (db : DB) (dn dt ts : String) :
    booking_exists_check db (some dn) (some dt) (some ts) = true ↔
      ∃ b ∈ db.bookings, b.doctor_name = some dn ∧ b.date = some dt ∧ b.time_slot = some ts := by
  simp only [booking_exists_check, List.any_eq_true, booking_matches_iff]

/-- The single-occupancy invariant of the Booking Ledger: at most one
booking exists for any concrete (doctor, date, time slot) triple. -/
def BookingUnique (l : List Booking) : Prop :=
  ∀ dn dt ts : String,
    l.countP (fun b => booking_matches b (some dn) (some dt) (some ts)) ≤ 1

/-- C2: for every pair of times with start strictly before end,
`generate_time_slots` walks a sequence that begins with the start time,
steps by exactly 20 minutes, is strictly increasing, and contains exactly
the slot start-times strictly below the end time (a slot is kept whenever
its start is before the end, even if its 20 minutes would run past it);
the returned strings are that sequence formatted as `HH:MM`. -/
theorem generate_time_slots_spec (s e : Nat) (h : s < e) :
    (slotTimes s e).head? = some s ∧
    List.Chain' (fun a b => b = a + 20) (slotTimes s e) ∧
    List.Pairwise (· < ·) (slotTimes s e) ∧
    (∀ m : Nat, m ∈ slotTimes s e ↔ (∃ k, m = s + 20 * k) ∧ m < e) ∧
    generate_time_slots s e = (slotTimes s e).map fmtHM :=
  ⟨slotTimes_head s e h, slotTimes_chain s e, slotTimes_sorted s e, mem_slotTimes s e, rfl⟩

theorem generate_time_slots_spec_witness :
    (slotTimes 540 600).head? = some 540 ∧
    List.Chain' (fun a b => b = a + 20) (slotTimes 540 600) ∧
    List.Pairwise (· < ·) (slotTimes 540 600) ∧
    (∀ m : Nat, m ∈ slotTimes 540 600 ↔ (∃ k, m = 540 + 20 * k) ∧ m < 600) ∧
    generate_time_slots 540 600 = (slotTimes 540 600).map fmtHM :=
  generate_time_slots_spec 540 600 (by decide)

/-- C1: `get_doctor_available_slots` returns the empty list when no doctor
with exactly that name exists; otherwise it returns the doctor's full slot
grid with exactly the slots booked for that (doctor, date) pair removed,
preserving the grid order (the result is a sublist of the grid), and the
grid minus the result is exactly the booked slots intersected with the
grid. -/
theorem available_slots_spec (db : DB) (name date : String) :
    (findDoctorExact db (some name) = none →
      get_doctor_available_slots db (some name) (some date) = []) ∧
    (∀ doc, findDoctorExact db (some name) = some doc →
      get_doctor_available_slots db (some name) (some date) =
        (generate_time_slots doc.available_start doc.available_end).filter
          (fun s => !((bookedSlotsFor db (some name) (some date)).contains (some s))) ∧
      (get_doctor_available_slots db (some name) (some date)).Sublist
        (generate_time_slots doc.available_start doc.available_end) ∧
      (generate_time_slots doc.available_start doc.available_end).filter
          (fun s => !((get_doctor_available_slots db (some name) (some date)).contains s)) =
        (generate_time_slots doc.available_start doc.available_end).filter
          (fun s => (bookedSlotsFor db (some name) (some date)).contains (some s))) := by
  constructor
  · intro h
    simp only [get_doctor_available_slots, h]
  · intro doc h
    have havail : get_doctor_available_slots db (some name) (some date) =
        (generate_time_slots doc.available_start doc.available_end).filter
          (fun s => !((bookedSlotsFor db (some name) (some date)).contains (some s))) := by
      simp only [get_doctor_available_slots, h]
    refine ⟨havail, ?_, ?_⟩
    · rw [havail]
      exact List.filter_sublist _
    · apply List.filter_congr
      intro s hs
      cases hb : (bookedSlotsFor db (some name) (some date)).contains (some s) with
      | true =>
        have hnot : s ∉ get_doctor_available_slots db (some name) (some date) := by
          rw [havail]
          intro hmem
          rw [List.mem_filter, hb] at hmem
          simp at hmem
        have hc : (get_doctor_available_slots db (some name) (some date)).contains s = false := by
          by_contra hcc
          rw [Bool.not_eq_false] at hcc
          exact hnot ((contains_eq_true_iff _ _).mp hcc)
        simp only [hc, Bool.not_false]
      | false =>
        have hmem : s ∈ get_doctor_available_slots db (some name) (some date) := by
          rw [havail, List.mem_filter]
          exact ⟨hs, by simp only [hb, Bool.not_false]⟩
        have hc : (get_doctor_available_slots db (some name) (some date)).contains s = true :=
          (contains_eq_true_iff _ _).mpr hmem
        simp only [hc, Bool.not_true]

/-- The spec scenario: Dr. Smith works 09:00 to 10:00, 09:20 is booked
on the date, so the available slots are 09:00 and 09:40. -/
def exSmith : Doctor := ⟨1, "Dr. Smith", "Cardiology", 540, 600, some "Friday"⟩

def exDB : DB :=
  ⟨[exSmith], [⟨1, some "Bob", some "Dr. Smith", some "2025-01-06", some "09:20"⟩], 2⟩

theorem available_slots_spec_witness :
    findDoctorExact exDB (some "Dr. Smith") = some exSmith ∧
    get_doctor_available_slots exDB (some "Dr. Smith") (some "2025-01-06") =
      (generate_time_slots exSmith.available_start exSmith.available_end).filter
        (fun s => !((bookedSlotsFor exDB (some "Dr. Smith") (some "2025-01-06")).contains (some s))) ∧
    get_doctor_available_slots exDB (some "Dr. Smith") (some "2025-01-06") = ["09:00", "09:40"] :=
  ⟨by decide, ((available_slots_spec exDB "Dr. Smith" "2025-01-06").2 exSmith (by decide)).1,
    by decide⟩

/-- C3: `create_booking` returns a conflict (`none`) exactly when a booking
with the identical (doctor, date, time slot) triple already exists, in
which case the store is unchanged; otherwise it appends a booking carrying
exactly the given fields and returns it, and the at-most-one-booking-per-
(doctor, date, slot) invariant is preserved. -/
theorem create_booking_spec (db : DB) (p dn dt ts : String) :
    ((create_booking db (some p) (some dn) (some dt) (some ts)).2 = none ↔
      ∃ b ∈ db.bookings, b.doctor_name = some dn ∧ b.date = some dt ∧ b.time_slot = some ts) ∧
    ((create_booking db (some p) (some dn) (some dt) (some ts)).2 = none →
      (create_booking db (some p) (some dn) (some dt) (some ts)).1 = db) ∧
    (∀ b, (create_booking db (some p) (some dn) (some dt) (some ts)).2 = some b →
      b.patient_name = some p ∧ b.doctor_name = some dn ∧ b.date = some dt ∧
        b.time_slot = some ts ∧
        (create_booking db (some p) (some dn) (some dt) (some ts)).1.bookings =
          db.bookings ++ [b]) ∧
    (BookingUnique db.bookings →
      BookingUnique (create_booking db (some p) (some dn) (some dt) (some ts)).1.bookings) := by
  by_cases h : booking_exists_check db (some dn) (some dt) (some ts) = true
  · refine ⟨?_, ?_, ?_, ?_⟩
    · simp only [create_booking, h, if_true]
      exact ⟨fun _ => (booking_exists_check_iff db dn dt ts).mp h, fun _ => trivial⟩
    · intro _
      simp only [create_booking, h, if_true]
    · intro b hb
      simp only [create_booking, h, if_true] at hb
      exact absurd hb (by simp)
    · intro hu
      simpa only [create_booking, h, if_true] using hu
  · have h2 : booking_exists_check db (some dn) (some dt) (some ts) = false := by
      simpa using h
    refine ⟨?_, ?_, ?_, ?_⟩
    · simp only [create_booking, h2, Bool.false_eq_true, if_false]
      constructor
      · intro hx
        exact absurd hx (by simp [booking_insert])
      · intro hx
        exact absurd ((booking_exists_check_iff db dn dt ts).mpr hx) (by simp [h2])
    · intro hx
      simp only [create_booking, h2, Bool.false_eq_true, if_false] at hx
      exact absurd hx (by simp [booking_insert])
    · intro b hb
      simp only [create_booking, h2, Bool.false_eq_true, if_false, Option.some.injEq] at hb
      subst hb
      refine ⟨rfl, rfl, rfl, rfl, ?_⟩
      simp only [create_booking, h2, Bool.false_eq_true, if_false]
      rfl
    · intro hu dn2 dt2 ts2
      simp only [create_booking, h2, Bool.false_eq_true, if_false, booking_insert,
        List.countP_append]
      by_cases hk : dn2 = dn ∧ dt2 = dt ∧ ts2 = ts
      · rw [hk.1, hk.2.1, hk.2.2]
        have hz : db.bookings.countP
            (fun b => booking_matches b (some dn) (some dt) (some ts)) = 0 := by
          rw [List.countP_eq_zero]
          intro b hb hmatch
          exact absurd ((booking_exists_check_iff db dn dt ts).mpr
            ⟨b, hb, (booking_matches_iff b dn dt ts).mp hmatch⟩) (by simp [h2])
        rw [hz]
        have hle : List.countP (fun b => booking_matches b (some dn) (some dt) (some ts))
            [(⟨db.next_id, some p, some dn, some dt, some ts⟩ : Booking)] ≤ 1 :=
          List.countP_le_length _
        omega
      · have hone : List.countP (fun b => booking_matches b (some dn2) (some dt2) (some ts2))
            [(⟨db.next_id, some p, some dn, some dt, some ts⟩ : Booking)] = 0 := by
          rw [List.countP_eq_zero]
          intro b hb hmatch
          simp only [List.mem_singleton] at hb
          subst hb
          rw [booking_matches_iff] at hmatch
          simp only [Option.some.injEq] at hmatch
          exact hk ⟨hmatch.1.symm, hmatch.2.1.symm, hmatch.2.2.symm⟩
        rw [hone]
        have := hu dn2 dt2 ts2
        omega

theorem create_booking_spec_witness :
    ((create_booking exDB (some "Alice") (some "Dr. Smith") (some "2025-01-06")
        (some "09:20")).2 = none ↔
      ∃ b ∈ exDB.bookings, b.doctor_name = some "Dr. Smith" ∧ b.date = some "2025-01-06" ∧
        b.time_slot = some "09:20") ∧
    ((create_booking exDB (some "Alice") (some "Dr. Smith") (some "2025-01-06")
        (some "09:20")).2 = none →
      (create_booking exDB (some "Alice") (some "Dr. Smith") (some "2025-01-06")
        (some "09:20")).1 = exDB) :=
  ⟨(create_booking_spec exDB "Alice" "Dr. Smith" "2025-01-06" "09:20").1,
    (create_booking_spec exDB "Alice" "Dr. Smith" "2025-01-06" "09:20").2.1⟩

/-- The initial store of the race scenario: no booking holds the key
(Dr. Smith, 2025-01-06, 09:00). -/
def raceDB0 : DB := ⟨[exSmith], [], 1⟩

/-- The store after the first interleaved call has inserted. -/
def raceDB1 : DB :=
  (booking_insert raceDB0 (some "Alice") (some "Dr. Smith") (some "2025-01-06")
    (some "09:00")).1

/-- The store after the second interleaved call has also inserted. -/
def raceDB2 : DB :=
  (booking_insert raceDB1 (some "Bob") (some "Dr. Smith") (some "2025-01-06")
    (some "09:00")).1

/-- C4: `create_booking` is its existence check followed by its insert with
no mutual exclusion between them, so when two calls for the same key both
run their checks against the initial store before either inserts (an
interleaving nothing in the code prevents: each call uses its own session
and `bookings` carries no uniqueness constraint), both checks report no
conflict, both inserts land, and the final store violates the
single-occupancy invariant with two bookings for the key. -/
theorem create_booking_race_bug :
    (∀ db patient dn dt ts, create_booking db patient dn dt ts =
      if booking_exists_check db dn dt ts then (db, none)
      else ((booking_insert db patient dn dt ts).1,
        some (booking_insert db patient dn dt ts).2)) ∧
    booking_exists_check raceDB0 (some "Dr. Smith") (some "2025-01-06") (some "09:00") = false ∧
    raceDB2.bookings.countP
      (fun b => booking_matches b (some "Dr. Smith") (some "2025-01-06") (some "09:00")) = 2 ∧
    ¬ BookingUnique raceDB2.bookings := by
  refine ⟨fun db patient dn dt ts => rfl, by decide, by decide, ?_⟩
  intro hu
  exact absurd (hu "Dr. Smith" "2025-01-06" "09:00") (by decide)

/-- A store holding no doctor at all, for the missing-doctor probe. -/
def emptyDB : DB := ⟨[], [], 1⟩

/-- C6 counterexample: the claim says `check_doctor_availability` returns
true when no doctor with the given name exists, but on a store with no
doctors and the well-formed date 2025-01-06 (a Monday, nobody's off-day)
the code returns false: the missing-doctor guard returns false before the
date is even parsed. -/
theorem check_availability_missing_doctor_cex :
    parseDate "2025-01-06" = some (2025, 1, 6) ∧
    dayName 2025 1 6 = "Monday" ∧
    findDoctorExact emptyDB (some "Dr. Ghost") = none ∧
    check_doctor_availability emptyDB (some "Dr. Ghost") "2025-01-06" = .ok false := by
  refine ⟨by decide, ?_, by decide, by decide⟩
  rfl

/-- C6 amended: for a well-formed date, `check_doctor_availability` returns
false exactly when no doctor with that exact name exists, or when the found
doctor has a truthy configured off-day equal to the day-of-week name of the
date; it returns true in every other case. -/
theorem check_availability_amended (db : DB) (name date : String) (y m d : Nat)
    (hd : parseDate date = some (y, m, d)) :
    ∃ b, check_doctor_availability db (some name) date = .ok b ∧
      (b = false ↔ (findDoctorExact db (some name) = none ∨
        ∃ doc, findDoctorExact db (some name) = some doc ∧
          ∃ o, doc.off_day = some o ∧ o ≠ "" ∧ dayName y m d = o)) := by
  cases hfind : findDoctorExact db (some name) with
  | none =>
    refine ⟨false, ?_, ?_⟩
    · simp only [check_doctor_availability, hfind]
    · simp [hfind]
  | some doc =>
    cases hoff : doc.off_day with
    | none =>
      refine ⟨true, ?_, ?_⟩
      · simp only [check_doctor_availability, hfind, hd, hoff]
      · simp [hfind, hoff]
    | some o =>
      by_cases hcond : (!(o == "") && dayName y m d == o) = true
      · refine ⟨false, ?_, ?_⟩
        · simp only [check_doctor_availability, hfind, hd, hoff, hcond, if_true]
        · have hcond2 : o ≠ "" ∧ dayName y m d = o := by
            constructor
            · intro hx
              rw [hx] at hcond
              simp at hcond
            · rcases Bool.and_eq_true_iff.mp hcond with ⟨_, hr⟩
              exact beq_iff_eq.mp hr
          constructor
          · intro _
            exact Or.inr ⟨doc, rfl, o, hoff, hcond2.1, hcond2.2⟩
          · intro _
            rfl
      · refine ⟨true, ?_, ?_⟩
        · simp only [check_doctor_availability, hfind, hd, hoff]
          rw [if_neg hcond]
        · constructor
          · intro hx
            exact absurd hx (by simp)
          · rintro (hx | ⟨doc2, hdoc2, o2, ho2, hne, hday⟩)
            · exact absurd hx (by simp)
            · injection hdoc2 with hdoc2
              subst hdoc2
              rw [hoff] at ho2
              injection ho2 with ho2
              subst ho2
              exact absurd
                (by rw [Bool.and_eq_true]; exact ⟨by simp [hne], beq_iff_eq.mpr hday⟩) hcond

theorem check_availability_amended_witness :
    parseDate "2025-01-10" = some (2025, 1, 10) ∧
    ∃ b, check_doctor_availability exDB (some "Dr. Smith") "2025-01-10" = .ok b ∧
      (b = false ↔ (findDoctorExact exDB (some "Dr. Smith") = none ∨
        ∃ doc, findDoctorExact exDB (some "Dr. Smith") = some doc ∧
          ∃ o, doc.off_day = some o ∧ o ≠ "" ∧ dayName 2025 1 10 = o)) :=
  ⟨by decide, check_availability_amended exDB "Dr. Smith" "2025-01-10" 2025 1 10 (by decide)⟩

/-- C7: a message whose lowercased full text is one of the reset phrases
unconditionally resets the session from any state: the step returns to
`welcome` and every collected field (name, intent, department, doctor,
date, time, confirmed flag, booking snapshot) is cleared, the reply being
the welcome prompt with `done = false` and no booking details. -/
theorem reset_phrases_spec (db : DB) (st : ConvState) (message : String) (parsed : Parsed)
    (today tomorrow : String) (h : resetPhrases.contains (strLower message) = true) :
    process_message db st message parsed today tomorrow =
      (db, freshState, ⟨.welcomePrompt, false, none⟩) := by
  simp only [process_message, process_inner, h, if_true]
  rfl

/-- A mid-flow session with every field collected, about to confirm. -/
def midState : ConvState :=
  ⟨some "Alice", none, some "Cardiology", some "Dr. Smith", some "2025-01-06",
    some "09:00", false, none, "confirm_booking"⟩

theorem reset_phrases_spec_witness :
    resetPhrases.contains (strLower "Hi") = true ∧
    process_message exDB midState "Hi" Parsed.empty "2025-01-05" "2025-01-06" =
      (exDB, freshState, ⟨.welcomePrompt, false, none⟩) :=
  ⟨by decide,
    reset_phrases_spec exDB midState "Hi" Parsed.empty "2025-01-05" "2025-01-06" (by decide)⟩

/-- The snapshot dict built from the booking the confirm step creates. -/
def confirmDetails (db : DB) (st : ConvState) : BookingDetails :=
  ⟨db.next_id, st.patient_name, st.selected_doctor, st.selected_date, st.selected_time⟩

/-- The session state after a successful confirmation. -/
def confirmedState (st : ConvState) (d : BookingDetails) : ConvState :=
  { st with booking_confirmed := true, booking_details := some d, step := "completed" }

/-- C8: in the confirm-booking step, a non-reset message containing "yes"
or "confirm" attempts the creation; when a booking with the session's
(doctor, date, slot) key already exists the creation conflicts, the reply
reports the slot was taken, the step falls back to `time_selection` and the
confirmed flag stays false with the store untouched; when no such booking
exists the new booking is inserted, its snapshot is stored, the confirmed
flag is set and the step becomes `completed`. -/
theorem confirm_booking_spec (db : DB) (st : ConvState) (message : String) (parsed : Parsed)
    (today tomorrow : String)
    (hreset : resetPhrases.contains (strLower message) = false)
    (hstep : st.step = "confirm_booking")
    (hyes : strContains (strLower message) "yes" = true ∨
      strContains (strLower message) "confirm" = true)
    (hconf : st.booking_confirmed = false) :
    (booking_exists_check db st.selected_doctor st.selected_date st.selected_time = true →
      process_message db st message parsed today tomorrow =
        (db, { st with step := "time_selection" },
          ⟨.conflictRetry, false, st.booking_details⟩)) ∧
    (booking_exists_check db st.selected_doctor st.selected_date st.selected_time = false →
      process_message db st message parsed today tomorrow =
        ((booking_insert db st.patient_name st.selected_doctor st.selected_date
            st.selected_time).1,
          confirmedState st (confirmDetails db st),
          ⟨.bookedOk (confirmDetails db st), true, some (confirmDetails db st)⟩)) := by
  have hml : (strContains (strLower message) "yes" ||
      strContains (strLower message) "confirm") = true := by
    rcases hyes with h | h <;> simp [h]
  constructor
  · intro hex
    simp only [process_message, process_inner, hreset, hstep, hml, handleConfirm,
      create_booking, hex, Bool.false_eq_true, if_false, if_true, hconf]
    simp [hconf]
  · intro hex
    simp only [process_message, process_inner, hreset, hstep, hml, handleConfirm,
      create_booking, hex, Bool.false_eq_true, if_false, if_true]
    simp [booking_insert, confirmedState, confirmDetails]

theorem confirm_booking_spec_witness :
    booking_exists_check exDB midState.selected_doctor midState.selected_date
      (some "09:20") = true ∧
    process_message exDB { midState with selected_time := some "09:20" } "yes" Parsed.empty
        "2025-01-05" "2025-01-06" =
      (exDB, { midState with selected_time := some "09:20", step := "time_selection" },
        ⟨.conflictRetry, false, none⟩) := by
  refine ⟨by decide, ?_⟩
  exact (confirm_booking_spec exDB { midState with selected_time := some "09:20" } "yes"
    Parsed.empty "2025-01-05" "2025-01-06" (by decide) (by decide) (Or.inl (by decide))
    (by decide)).1 (by decide)

theorem handleWelcome_error (db : DB) (st : ConvState) (parsed : Parsed) (db2 : DB)
    (st2 : ConvState) (e : Unit) (h : handleWelcome db st parsed = (db2, st2, .error e)) :
    db2 = db ∧ st2 = st := by
  unfold handleWelcome at h
  repeat' first
    | split at h
    | simp only [] at h
  all_goals simp_all

theorem handleBookingRequest_error (db : DB) (st : ConvState) (ml : String) (parsed : Parsed)
    (db2 : DB) (st2 : ConvState) (e : Unit)
    (h : handleBookingRequest db st ml parsed = (db2, st2, .error e)) :
    db2 = db ∧ st2 = st := by
  unfold handleBookingRequest at h
  repeat' first
    | split at h
    | simp only [] at h
  all_goals simp_all

theorem handleDeptSelection_error (db : DB) (st : ConvState) (parsed : Parsed)
    (db2 : DB) (st2 : ConvState) (e : Unit)
    (h : handleDeptSelection db st parsed = (db2, st2, .error e)) :
    db2 = db ∧ st2 = st := by
  unfold handleDeptSelection at h
  repeat' first
    | split at h
    | simp only [] at h
  all_goals simp_all

theorem handleDoctorSelection_error (db : DB) (st : ConvState) (ml : String) (parsed : Parsed)
    (today tomorrow : String) (db2 : DB) (st2 : ConvState) (e : Unit)
    (h : handleDoctorSelection db st ml parsed today tomorrow = (db2, st2, .error e)) :
    db2 = db ∧ st2 = st := by
  unfold handleDoctorSelection at h
  repeat' first
    | split at h
    | simp only [] at h
  all_goals simp_all

theorem handleDateSelection_error (db : DB) (st : ConvState) (ml : String) (parsed : Parsed)
    (today tomorrow : String) (db2 : DB) (st2 : ConvState) (e : Unit)
    (h : handleDateSelection db st ml parsed today tomorrow = (db2, st2, .error e)) :
    db2 = db ∧ st2 = st := by
  unfold handleDateSelection at h
  repeat' first
    | split at h
    | simp only [] at h
  all_goals simp_all

theorem handleTimeSelection_error (db : DB) (st : ConvState) (parsed : Parsed)
    (db2 : DB) (st2 : ConvState) (e : Unit)
    (h : handleTimeSelection db st parsed = (db2, st2, .error e)) :
    db2 = db ∧ st2 = st := by
  unfold handleTimeSelection at h
  repeat' first
    | split at h
    | simp only [] at h
  all_goals simp_all

theorem handleConfirm_error (db : DB) (st : ConvState) (ml : String)
    (db2 : DB) (st2 : ConvState) (e : Unit)
    (h : handleConfirm db st ml = (db2, st2, .error e)) :
    db2 = db ∧ st2 = st := by
  unfold handleConfirm at h
  repeat' first
    | split at h
    | simp only [] at h
  all_goals simp_all

set_option maxHeartbeats 1600000 in
theorem process_inner_error (db : DB) (st : ConvState) (message : String) (parsed : Parsed)
    (today tomorrow : String) (db2 : DB) (st2 : ConvState) (e : Unit)
    (h : process_inner db st message parsed today tomorrow = (db2, st2, .error e)) :
    db2 = db ∧ st2 = st := by
  unfold process_inner at h
  repeat' first
    | split at h
    | simp only [] at h
  all_goals first
    | exact handleWelcome_error _ _ _ _ _ _ h
    | exact handleBookingRequest_error _ _ _ _ _ _ _ h
    | exact handleDeptSelection_error _ _ _ _ _ _ h
    | exact handleDoctorSelection_error _ _ _ _ _ _ _ _ _ h
    | exact handleDateSelection_error _ _ _ _ _ _ _ _ _ h
    | exact handleTimeSelection_error _ _ _ _ _ _ h
    | exact handleConfirm_error _ _ _ _ _ _ h
    | simp_all

/-- C9: when the per-message transition logic raises, the call returns the
generic apology with `done = false` and no booking details, and both the
store and the session state are exactly what they were before the message
(every raise point in the handler precedes that branch's state writes). -/
theorem unexpected_error_spec (db : DB) (st : ConvState) (message : String) (parsed : Parsed)
    (today tomorrow : String) (db2 : DB) (st2 : ConvState) (e : Unit)
    (h : process_inner db st message parsed today tomorrow = (db2, st2, .error e)) :
    db2 = db ∧ st2 = st ∧
      process_message db st message parsed today tomorrow =
        (db, st, ⟨.apology, false, none⟩) := by
  have hmain : db2 = db ∧ st2 = st :=
    process_inner_error db st message parsed today tomorrow db2 st2 e h
  refine ⟨hmain.1, hmain.2, ?_⟩
  unfold process_message
  rw [h, hmain.1, hmain.2]

/-- A session in doctor selection whose selected department was never set:
a parsed department then dereferences `None.lower()` and raises. -/
def errState : ConvState :=
  ⟨some "Alice", none, none, none, none, none, false, none, "doctor_selection"⟩

def errParsed : Parsed := ⟨none, none, some "Cardiology", none, none, none, none⟩

theorem unexpected_error_spec_witness :
    process_inner exDB errState "next" errParsed "2025-01-05" "2025-01-06" =
      (exDB, errState, .error ()) ∧
    process_message exDB errState "next" errParsed "2025-01-05" "2025-01-06" =
      (exDB, errState, ⟨.apology, false, none⟩) :=
  ⟨by decide,
    (unexpected_error_spec exDB errState "next" errParsed "2025-01-05" "2025-01-06"
      exDB errState () (by decide)).2.2⟩

/-- The session invariant tying the confirmed flag, the snapshot and the
step together. -/
def StateInv (st : ConvState) : Prop :=
  (st.booking_confirmed = true ↔ st.step = "completed") ∧
  (st.booking_details.isSome = true ↔ st.booking_confirmed = true)

theorem handleWelcome_inv (db : DB) (st : ConvState) (parsed : Parsed)
    (hs : st.step ≠ "completed")
    (hc : st.booking_confirmed = false) (hd : st.booking_details = none) :
    StateInv (handleWelcome db st parsed).2.1 := by
  unfold handleWelcome
  repeat' first
    | split
    | simp only []
  all_goals simp_all [StateInv]

theorem handleBookingRequest_inv (db : DB) (st : ConvState) (ml : String) (parsed : Parsed)
    (hs : st.step ≠ "completed")
    (hc : st.booking_confirmed = false) (hd : st.booking_details = none) :
    StateInv (handleBookingRequest db st ml parsed).2.1 := by
  unfold handleBookingRequest
  repeat' first
    | split
    | simp only []
  all_goals simp_all [StateInv]

theorem handleDeptSelection_inv (db : DB) (st : ConvState) (parsed : Parsed)
    (hs : st.step ≠ "completed")
    (hc : st.booking_confirmed = false) (hd : st.booking_details = none) :
    StateInv (handleDeptSelection db st parsed).2.1 := by
  unfold handleDeptSelection
  repeat' first
    | split
    | simp only []
  all_goals simp_all [StateInv]

theorem handleDoctorSelection_inv (db : DB) (st : ConvState) (ml : String) (parsed : Parsed)
    (today tomorrow : String)
    (hs : st.step ≠ "completed")
    (hc : st.booking_confirmed = false) (hd : st.booking_details = none) :
    StateInv (handleDoctorSelection db st ml parsed today tomorrow).2.1 := by
  unfold handleDoctorSelection
  repeat' first
    | split
    | simp only []
  all_goals simp_all [StateInv]

theorem handleDateSelection_inv (db : DB) (st : ConvState) (ml : String) (parsed : Parsed)
    (today tomorrow : String)
    (hs : st.step ≠ "completed")
    (hc : st.booking_confirmed = false) (hd : st.booking_details = none) :
    StateInv (handleDateSelection db st ml parsed today tomorrow).2.1 := by
  unfold handleDateSelection
  repeat' first
    | split
    | simp only []
  all_goals simp_all [StateInv]

theorem handleTimeSelection_inv (db : DB) (st : ConvState) (parsed : Parsed)
    (hs : st.step ≠ "completed")
    (hc : st.booking_confirmed = false) (hd : st.booking_details = none) :
    StateInv (handleTimeSelection db st parsed).2.1 := by
  unfold handleTimeSelection
  repeat' first
    | split
    | simp only []
  all_goals simp_all [StateInv]

theorem handleConfirm_inv (db : DB) (st : ConvState) (ml : String)
    (hs : st.step ≠ "completed")
    (hc : st.booking_confirmed = false) (hd : st.booking_details = none) :
    StateInv (handleConfirm db st ml).2.1 := by
  unfold handleConfirm
  repeat' first
    | split
    | simp only []
  all_goals simp_all [StateInv]

set_option maxHeartbeats 1600000 in
theorem process_inner_preserves (db : DB) (st : ConvState) (message : String) (parsed : Parsed)
    (today tomorrow : String) (hinv : StateInv st) :
    StateInv (process_inner db st message parsed today tomorrow).2.1 := by
  obtain ⟨h1, h2⟩ := hinv
  have hconf : st.step ≠ "completed" → st.booking_confirmed = false := by
    intro hne
    cases hb : st.booking_confirmed
    · rfl
    · exact absurd (h1.mp hb) hne
  have hdet : st.step ≠ "completed" → st.booking_details = none := by
    intro hne
    cases hdd : st.booking_details with
    | none => rfl
    | some d =>
      have hsome : st.booking_confirmed = true := h2.mp (by rw [hdd]; rfl)
      exact absurd (h1.mp hsome) hne
  unfold process_inner
  repeat' first
    | split
    | simp only []
  all_goals first
    | exact ⟨h1, h2⟩
    | (simp [StateInv, freshState]; done)
    | exact handleWelcome_inv _ _ _ (by simp_all) (hconf (by simp_all)) (hdet (by simp_all))
    | exact handleBookingRequest_inv _ _ _ _ (by simp_all) (hconf (by simp_all)) (hdet (by simp_all))
    | exact handleDeptSelection_inv _ _ _ (by simp_all) (hconf (by simp_all)) (hdet (by simp_all))
    | exact handleDoctorSelection_inv _ _ _ _ _ _ (by simp_all) (hconf (by simp_all)) (hdet (by simp_all))
    | exact handleDateSelection_inv _ _ _ _ _ _ (by simp_all) (hconf (by simp_all)) (hdet (by simp_all))
    | exact handleTimeSelection_inv _ _ _ (by simp_all) (hconf (by simp_all)) (hdet (by simp_all))
    | exact handleConfirm_inv _ _ _ (by simp_all) (hconf (by simp_all)) (hdet (by simp_all))

theorem process_message_state (db : DB) (st : ConvState) (message : String) (parsed : Parsed)
    (today tomorrow : String) :
    (process_message db st message parsed today tomorrow).2.1 =
      (process_inner db st message parsed today tomorrow).2.1 := by
  unfold process_message
  cases h : process_inner db st message parsed today tomorrow with
  | mk db2 p2 =>
    cases p2 with
    | mk st2 r => cases r <;> rfl

/-- The session states reachable from a fresh session by any sequence of
processed messages, over any store, message, parse and clock. -/
inductive ReachableState : ConvState → Prop where
  | init : ReachableState freshState
  | step (db : DB) (st : ConvState) (message : String) (parsed : Parsed)
      (today tomorrow : String) : ReachableState st →
      ReachableState (process_message db st message parsed today tomorrow).2.1

/-- C10: every reachable session state has its confirmed flag set exactly
when the step is `completed` and carries a booking snapshot exactly when
the flag is set; consequently, whenever the transition logic returns
normally, the reply says `done` exactly when the resulting step is
`completed`. -/
theorem session_invariant_spec (st : ConvState) (h : ReachableState st) :
    StateInv st ∧
    ∀ db message parsed today tomorrow db2 st2 m,
      process_inner db st message parsed today tomorrow = (db2, st2, Except.ok m) →
      ((process_message db st message parsed today tomorrow).2.2.done = true ↔
        st2.step = "completed") := by
  have hmain : ∀ s, ReachableState s → StateInv s := by
    intro s hs
    induction hs with
    | init => simp [StateInv, freshState]
    | step db s2 msg p td tm hs2 ih =>
      rw [process_message_state]
      exact process_inner_preserves db s2 msg p td tm ih
  refine ⟨hmain st h, ?_⟩
  intro db message parsed today tomorrow db2 st2 m hok
  have hinv2 : StateInv st2 := by
    have hp := process_inner_preserves db st message parsed today tomorrow (hmain st h)
    rw [hok] at hp
    exact hp
  unfold process_message
  rw [hok]
  exact hinv2.1

def aliceParsed : Parsed := ⟨some "provide_name", some "Alice", none, none, none, none, none⟩

theorem session_invariant_spec_witness :
    StateInv freshState ∧
    ((process_message exDB freshState "I am Alice" aliceParsed "2025-01-05"
        "2025-01-06").2.2.done = true ↔
      ({ freshState with patient_name := some "Alice", step := "booking_request" } :
        ConvState).step = "completed") :=
  ⟨(session_invariant_spec freshState ReachableState.init).1,
    (session_invariant_spec freshState ReachableState.init).2 exDB "I am Alice" aliceParsed
      "2025-01-05" "2025-01-06" exDB
      { freshState with patient_name := some "Alice", step := "booking_request" }
      (.greet "Alice") (by decide)⟩

/-- The ranking the spec prescribes for alternatives: strictly closer to
the preferred time first, ties broken by ascending time. A stable sort on
the distance key alone realises exactly this order on a time-ascending
input list. -/
def lexRel (key : Nat → Nat) (a b : Nat) : Prop :=
  key a < key b ∨ (key a = key b ∧ a < b)

theorem insertStable_perm (key : Nat → Nat) (x : Nat) (l : List Nat) :
    (insertStable key x l).Perm (x :: l) := by
  induction l with
  | nil => exact List.Perm.refl _
  | cons y ys ih =>
    unfold insertStable
    by_cases hk : key y < key x
    · rw [if_pos hk]
      exact (ih.cons y).trans (List.Perm.swap x y ys)
    · rw [if_neg hk]

theorem sortStableByKey_perm (key : Nat → Nat) (l : List Nat) :
    (sortStableByKey key l).Perm l := by
  induction l with
  | nil => exact List.Perm.refl _
  | cons x xs ih =>
    unfold sortStableByKey
    exact (insertStable_perm key x _).trans (ih.cons x)

theorem insertStable_pairwise (key : Nat → Nat) (x : Nat) (s : List Nat)
    (hs : s.Pairwise (lexRel key)) (hx : ∀ y ∈ s, x < y) :
    (insertStable key x s).Pairwise (lexRel key) := by
  induction s with
  | nil => simp [insertStable, List.pairwise_singleton]
  | cons y ys ih =>
    rw [List.pairwise_cons] at hs
    unfold insertStable
    by_cases hk : key y < key x
    · rw [if_pos hk, List.pairwise_cons]
      constructor
      · intro z hz
        have hz2 : z ∈ x :: ys := (insertStable_perm key x ys).mem_iff.mp hz
        rcases List.mem_cons.mp hz2 with rfl | hz3
        · exact Or.inl hk
        · exact hs.1 z hz3
      · exact ih hs.2 (fun y2 hy2 => hx y2 (List.mem_cons_of_mem y hy2))
    · rw [if_neg hk, List.pairwise_cons]
      have hxy : x < y := hx y (List.mem_cons_self y ys)
      constructor
      · intro z hz
        rcases List.mem_cons.mp hz with rfl | hz2
        · rcases Nat.lt_or_ge (key x) (key z) with hlt | hge
          · exact Or.inl hlt
          · exact Or.inr ⟨by omega, hxy⟩
        · rcases hs.1 z hz2 with hlt | ⟨heq, hyz⟩
          · exact Or.inl (by omega)
          · rcases Nat.lt_or_ge (key x) (key z) with hlt2 | hge2
            · exact Or.inl hlt2
            · exact Or.inr ⟨by omega, hx z (List.mem_cons_of_mem y hz2)⟩
      · exact List.pairwise_cons.mpr hs

theorem sortStableByKey_pairwise (key : Nat → Nat) (l : List Nat)
    (hl : l.Pairwise (· < ·)) :
    (sortStableByKey key l).Pairwise (lexRel key) := by
  induction l with
  | nil => exact List.Pairwise.nil
  | cons x xs ih =>
    rw [List.pairwise_cons] at hl
    unfold sortStableByKey
    refine insertStable_pairwise key x _ (ih hl.2) ?_
    intro y hy
    exact hl.1 y ((sortStableByKey_perm key xs).mem_iff.mp hy)

theorem parseTimes_map_fmtHM (ms : List Nat) (hm : ∀ m ∈ ms, m < 1440) :
    parseTimes (ms.map fmtHM) = some ms := by
  induction ms with
  | nil => rfl
  | cons m ms ih =>
    rw [List.map_cons]
    unfold parseTimes
    rw [parseHM_fmtHM m (hm m (List.mem_cons_self m ms)),
      ih (fun m2 hm2 => hm m2 (List.mem_cons_of_mem m hm2))]

/-- C5: `suggest_alternative_slots` returns the empty list when no slots
are free, exactly `[preferredTime]` when the preferred time is free, and
otherwise the up-to-3 free slots closest to the preferred time by absolute
distance with ties broken by ascending time: the returned list is the
3-prefix of a permutation of the free slots ordered by that ranking. The
result never exceeds 3 entries. -/
theorem suggest_alternative_slots_spec (db : DB) (name date pt : String) (p : Nat)
    (hp : parseHM pt = some p)
    (hwf : ∀ dc ∈ db.doctors, dc.available_end ≤ 1440) :
    (get_doctor_available_slots db (some name) (some date) = [] →
      suggest_alternative_slots db (some name) (some date) pt = .ok []) ∧
    (pt ∈ get_doctor_available_slots db (some name) (some date) →
      suggest_alternative_slots db (some name) (some date) pt = .ok [pt]) ∧
    (get_doctor_available_slots db (some name) (some date) ≠ [] →
      pt ∉ get_doctor_available_slots db (some name) (some date) →
      ∃ ms : List Nat, ∃ l : List Nat,
        parseTimes (get_doctor_available_slots db (some name) (some date)) = some ms ∧
        List.Perm l ms ∧ List.Pairwise (lexRel (Nat.dist p)) l ∧
        suggest_alternative_slots db (some name) (some date) pt =
          .ok ((l.take 3).map fmtHM)) ∧
    (∀ r, suggest_alternative_slots db (some name) (some date) pt = .ok r →
      r.length ≤ 3) := by
  refine ⟨?_, ?_, ?_, ?_⟩
  · intro h
    simp only [suggest_alternative_slots, h, List.isEmpty_nil, if_true]
  · intro hmem
    have hE : (get_doctor_available_slots db (some name) (some date)).isEmpty = false := by
      cases hav : get_doctor_available_slots db (some name) (some date) with
      | nil => rw [hav] at hmem; exact absurd hmem (List.not_mem_nil pt)
      | cons a l => rfl
    have hC : (get_doctor_available_slots db (some name) (some date)).contains pt = true :=
      (contains_eq_true_iff _ _).mpr hmem
    simp only [suggest_alternative_slots, hE, hC, Bool.false_eq_true, if_false, if_true]
  · intro hne hnotin
    have hE : (get_doctor_available_slots db (some name) (some date)).isEmpty = false := by
      cases hav : get_doctor_available_slots db (some name) (some date) with
      | nil => exact absurd hav hne
      | cons a l => rfl
    have hC : (get_doctor_available_slots db (some name) (some date)).contains pt = false := by
      by_contra hcc
      rw [Bool.not_eq_false] at hcc
      exact hnotin ((contains_eq_true_iff _ _).mp hcc)
    cases hfind : findDoctorExact db (some name) with
    | none =>
      refine absurd ?_ hne
      simp only [get_doctor_available_slots, hfind]
    | some doc =>
      have hdoc : doc ∈ db.doctors := by
        have := hfind
        unfold findDoctorExact at this
        exact List.mem_of_find?_eq_some this
      have havail : get_doctor_available_slots db (some name) (some date) =
          ((slotTimes doc.available_start doc.available_end).filter
            (fun m => !((bookedSlotsFor db (some name) (some date)).contains
              (some (fmtHM m))))).map fmtHM := by
        simp only [get_doctor_available_slots, hfind, generate_time_slots]
        exact List.filter_map fmtHM _
      have hms_lt : ∀ m ∈ (slotTimes doc.available_start doc.available_end).filter
          (fun m => !((bookedSlotsFor db (some name) (some date)).contains
            (some (fmtHM m)))), m < 1440 := by
        intro m hm2
        have hm3 : m ∈ slotTimes doc.available_start doc.available_end :=
          List.mem_of_mem_filter hm2
        have hm4 := ((mem_slotTimes doc.available_start doc.available_end m).mp hm3).2
        have hm5 := hwf doc hdoc
        omega
      have hms_sorted : ((slotTimes doc.available_start doc.available_end).filter
          (fun m => !((bookedSlotsFor db (some name) (some date)).contains
            (some (fmtHM m))))).Pairwise (· < ·) :=
        List.Pairwise.sublist (List.filter_sublist _)
          (slotTimes_sorted doc.available_start doc.available_end)
      refine ⟨_, sortStableByKey (Nat.dist p) _, ?_, sortStableByKey_perm _ _,
        sortStableByKey_pairwise _ _ hms_sorted, ?_⟩
      · rw [havail]
        exact parseTimes_map_fmtHM _ hms_lt
      · simp only [suggest_alternative_slots, hE, hC, Bool.false_eq_true, if_false, hp]
        rw [havail, parseTimes_map_fmtHM _ hms_lt]
  · intro r hr
    unfold suggest_alternative_slots at hr
    repeat' first
      | split at hr
      | simp only [] at hr
    all_goals (try simp_all)
    all_goals (try subst hr)
    all_goals (try simp [List.length_take])
    all_goals omega


theorem suggest_alternative_slots_spec_witness :
    parseHM "09:20" = some 560 ∧
    (∀ dc ∈ exDB.doctors, dc.available_end ≤ 1440) ∧
    (∀ r, suggest_alternative_slots exDB (some "Dr. Smith") (some "2025-01-06") "09:20" =
        .ok r → r.length ≤ 3) ∧
    suggest_alternative_slots exDB (some "Dr. Smith") (some "2025-01-06") "09:20" =
      .ok ["09:00", "09:40"] :=
  ⟨by decide, by decide,
    (suggest_alternative_slots_spec exDB "Dr. Smith" "2025-01-06" "09:20" 560 (by decide)
      (by decide)).2.2.2,
    by decide⟩

end HospitalBooking
